import Mathlib

/-!
Verification of the LLM recommendation service (app/services/llm_service.py).

The development shallowly embeds the pure computational content of the
service: model-alias resolution, prompt construction, and the response
parsing and validation performed after each completion call.  Strings are
embedded as Lean `String`, Python dictionaries produced by `json.loads` as
association lists in document order (with later duplicate keys winning on
lookup, as in a Python dict), and Python exceptions as explicit result
constructors.
-/

/-- JSON values, as produced by the Python `json.loads` call in the service.
Numbers are represented exactly as rationals; the non-standard
`NaN`/`Infinity` extensions of the Python decoder are not modelled. -/
inductive Json where
  | null : Json
  | bool (b : Bool) : Json
  | num (q : ℚ) : Json
  | str (s : String) : Json
  | arr (elems : List Json) : Json
  | obj (fields : List (String × Json)) : Json

/-- Truthiness of a decoded JSON value under Python `if not x` tests:
`None`, `False`, zero, and empty strings, lists and dicts are falsy. -/
def Json.truthy : Json → Bool
  | .null => false
  | .bool b => b
  | .num q => q != 0
  | .str s => s != ""
  | .arr l => !l.isEmpty
  | .obj l => !l.isEmpty

/-- Whitespace accepted between tokens by the JSON grammar. -/
def jsonWs (c : Char) : Bool :=
  c == ' ' || c == '\t' || c == '\n' || c == '\r'

/-- Drop leading JSON whitespace. -/
def skipWs (cs : List Char) : List Char :=
  cs.dropWhile jsonWs

/-- Whitespace stripped by the Python `str.strip()` call on the raw
completion text (the ASCII whitespace set). -/
def pyWs (c : Char) : Bool :=
  c == ' ' || c == '\t' || c == '\n' || c == '\r' || c == '\x0b' || c == '\x0c'

/-- Model of the Python `content.strip()` call: remove leading and trailing
whitespace. -/
def pyStrip (s : String) : String :=
  ⟨ ((s.data.dropWhile pyWs).reverse.dropWhile pyWs).reverse ⟩

/-- Numeric value of a hexadecimal digit, if any. -/
def hexVal (c : Char) : Option Nat :=
  let n := c.toNat
  if 48 ≤ n && n ≤ 57 then some (n - 48)
  else if 97 ≤ n && n ≤ 102 then some (n - 87)
  else if 65 ≤ n && n ≤ 70 then some (n - 55)
  else none

/-- Single-character escape sequences of JSON strings. -/
def unescape : Char → Option Char
  | '"' => some '"'
  | '\\' => some '\\'
  | '/' => some '/'
  | 'b' => some (Char.ofNat 8)
  | 'f' => some (Char.ofNat 12)
  | 'n' => some '\n'
  | 'r' => some '\r'
  | 't' => some '\t'
  | _ => none

/-- Parse the body of a JSON string (the opening quote already consumed),
returning the decoded characters and the rest of the input.  Strict mode of
the Python decoder: unescaped control characters are rejected. -/
def parseStrChars : List Char → Option (List Char × List Char)
  | [] => none
  | c :: rest =>
    if c == '"' then some ([], rest)
    else if c == '\\' then
      match rest with
      | 'u' :: h1 :: h2 :: h3 :: h4 :: rest2 =>
        match hexVal h1, hexVal h2, hexVal h3, hexVal h4 with
        | some a, some b, some d, some e =>
          match parseStrChars rest2 with
          | some (s, r) => some (Char.ofNat (((a * 16 + b) * 16 + d) * 16 + e) :: s, r)
          | none => none
        | _, _, _, _ => none
      | e :: rest2 =>
        match unescape e with
        | some c2 =>
          match parseStrChars rest2 with
          | some (s, r) => some (c2 :: s, r)
          | none => none
        | none => none
      | [] => none
    else if c.toNat < 32 then none
    else
      match parseStrChars rest with
      | some (s, r) => some (c :: s, r)
      | none => none

/-- Natural number denoted by a list of decimal digits. -/
def natOfDigits (cs : List Char) : Nat :=
  cs.foldl (fun a c => a * 10 + (c.toNat - 48)) 0

/-- Rational value of a JSON number given the digits of its integer part,
fraction part (possibly empty), exponent sign and exponent digits:
the value of `ids.fds * 10^(±eds)`. -/
def numValue (ids fds : List Char) (expNeg : Bool) (eds : List Char) : ℚ :=
  let m : Nat := natOfDigits (ids ++ fds)
  let f : Nat := fds.length
  let e : Nat := natOfDigits eds
  if expNeg then mkRat (Int.ofNat m) (10 ^ (f + e))
  else if f ≤ e then mkRat (Int.ofNat (m * 10 ^ (e - f))) 1
  else mkRat (Int.ofNat m) (10 ^ (f - e))

/-- Parse the exponent suffix of a JSON number, if present: returns the
exponent sign, its digits and the rest of the input. -/
def parseExpSuffix (cs : List Char) : Option (Bool × List Char × List Char) :=
  match cs with
  | 'e' :: rest | 'E' :: rest =>
    let signedRest : Bool × List Char :=
      match rest with
      | '-' :: rest2 => (true, rest2)
      | '+' :: rest2 => (false, rest2)
      | _ => (false, rest)
    let es := signedRest.2.takeWhile Char.isDigit
    if es.isEmpty then none
    else some (signedRest.1, es, signedRest.2.dropWhile Char.isDigit)
  | _ => some (false, [], cs)

/-- Parse the digits of a JSON number after an optional leading minus sign:
integer part (no leading zeros), optional fraction, optional exponent.
Returns the absolute rational value and the rest of the input. -/
def parseNumBody (cs : List Char) : Option (ℚ × List Char) :=
  let intPart : Option (List Char × List Char) :=
    match cs with
    | '0' :: rest => some (['0'], rest)
    | _ =>
      let ds := cs.takeWhile Char.isDigit
      if ds.isEmpty then none else some (ds, cs.dropWhile Char.isDigit)
  match intPart with
  | none => none
  | some (ids, rest1) =>
    let fracPart : Option (List Char × List Char) :=
      match rest1 with
      | '.' :: rest2 =>
        let fs := rest2.takeWhile Char.isDigit
        if fs.isEmpty then none else some (fs, rest2.dropWhile Char.isDigit)
      | _ => some ([], rest1)
    match fracPart with
    | none => none
    | some (fds, rest3) =>
      match parseExpSuffix rest3 with
      | none => none
      | some (expNeg, eds, rest4) => some (numValue ids fds expNeg eds, rest4)

/-- Parse a JSON number (with optional leading minus sign). -/
def parseNum (cs : List Char) : Option (ℚ × List Char) :=
  match cs with
  | '-' :: rest =>
    match parseNumBody rest with
    | some (q, r) => some (-q, r)
    | none => none
  | _ => parseNumBody cs

mutual

/-- Fuel-indexed recursive-descent parser for a single JSON value,
modelling the grammar accepted by `json.loads`.  Returns the value and the
unconsumed input. -/
def parseValue : Nat → List Char → Option (Json × List Char)
  | 0, _ => none
  | Nat.succ fuel, cs =>
    match cs with
    | [] => none
    | c :: rest =>
      if c == '"' then
        match parseStrChars rest with
        | some (s, r) => some (Json.str ⟨s⟩, r)
        | none => none
      else if c == '[' then
        match skipWs rest with
        | ']' :: r => some (Json.arr [], r)
        | cs2 => match parseArrItems fuel cs2 with
          | some (vs, r) => some (Json.arr vs, r)
          | none => none
      else if c == '{' then
        match skipWs rest with
        | '}' :: r => some (Json.obj [], r)
        | cs2 => match parseObjMembers fuel cs2 with
          | some (fs, r) => some (Json.obj fs, r)
          | none => none
      else if c == 't' then
        match rest with
        | 'r' :: 'u' :: 'e' :: r => some (Json.bool true, r)
        | _ => none
      else if c == 'f' then
        match rest with
        | 'a' :: 'l' :: 's' :: 'e' :: r => some (Json.bool false, r)
        | _ => none
      else if c == 'n' then
        match rest with
        | 'u' :: 'l' :: 'l' :: r => some (Json.null, r)
        | _ => none
      else if c == '-' || c.isDigit then
        match parseNum cs with
        | some (q, r) => some (Json.num q, r)
        | none => none
      else none

/-- Parse the comma-separated items of a non-empty JSON array, up to and
including the closing bracket. -/
def parseArrItems : Nat → List Char → Option (List Json × List Char)
  | 0, _ => none
  | Nat.succ fuel, cs =>
    match parseValue fuel cs with
    | none => none
    | some (v, r) =>
      match skipWs r with
      | ',' :: r2 =>
        match parseArrItems fuel (skipWs r2) with
        | some (vs, r3) => some (v :: vs, r3)
        | none => none
      | ']' :: r2 => some ([v], r2)
      | _ => none

/-- Parse the comma-separated members of a non-empty JSON object, up to and
including the closing brace. -/
def parseObjMembers : Nat → List Char → Option (List (String × Json) × List Char)
  | 0, _ => none
  | Nat.succ fuel, cs =>
    match cs with
    | '"' :: rest =>
      match parseStrChars rest with
      | none => none
      | some (k, r) =>
        match skipWs r with
        | ':' :: r2 =>
          match parseValue fuel (skipWs r2) with
          | none => none
          | some (v, r3) =>
            match skipWs r3 with
            | ',' :: r4 =>
              match parseObjMembers fuel (skipWs r4) with
              | some (fs, r5) => some ((⟨k⟩, v) :: fs, r5)
              | none => none
            | '}' :: r4 => some ([(⟨k⟩, v)], r4)
            | _ => none
        | _ => none
    | _ => none

end

/-- Model of `json.loads`: parse a complete JSON document, allowing
surrounding whitespace, requiring the whole input to be consumed.  `none`
models a raised `json.JSONDecodeError`. -/
def jsonParse (s : String) : Option Json :=
  match parseValue (s.data.length + 16) (skipWs s.data) with
  | some (j, rest) => if (skipWs rest).isEmpty then some j else none
  | none => none

/-- Model of the Python `dict.get key default` call on a decoded JSON
object: the value of the last binding of `key` (later duplicate keys
overwrite earlier ones in a Python dict), or `dflt` if the key is absent. -/
def jsonObjGet (fields : List (String × Json)) (key : String) (dflt : Json) : Json :=
  match fields.reverse.lookup key with
  | some v => v
  | none => dflt

/-- Outcome of the response-processing segment of a recommendation
operation.  `success` models a normal return; `emptyResult` the
`ValueError` raised when the extracted value is falsy; `malformed` the
`json.JSONDecodeError` propagated with the offending text; `attrError` the
`AttributeError` raised when `dict.get` is called on a decoded document
that is not an object. -/
inductive ParseResult where
  | success (v : Json)
  | emptyResult
  | malformed (content : String)
  | attrError

/-- Response-processing step shared verbatim (up to the field name) by
`get_artist_recommendations` (lines 85-100) and `get_track_recommendations`
(lines 145-160): strip the completion text, run `json.loads`, extract the
expected field with an empty-list default, and raise `ValueError` when the
result is falsy. -/
def parseLLMResponse (field : String) (raw : String) : ParseResult :=
  match jsonParse (pyStrip raw) with
  | none => ParseResult.malformed (pyStrip raw)
  | some (Json.obj fields) =>
    if (jsonObjGet fields field (Json.arr [])).truthy then
      ParseResult.success (jsonObjGet fields field (Json.arr []))
    else ParseResult.emptyResult
  | some _ => ParseResult.attrError

/-- Validation step of `get_artist_recommendations` (stage 1). -/
def getArtistRecommendationsParse (raw : String) : ParseResult :=
  parseLLMResponse "artists" raw

/-- Validation step of `get_track_recommendations` (stage 2). -/
def getTrackRecommendationsParse (raw : String) : ParseResult :=
  parseLLMResponse "tracks" raw

/-- Response-processing step of the single-stage `get_recommendations`
(lines 49-50): `json.loads` on the unstripped completion text, then
`result.get("artists", [])` returned with no emptiness check. -/
def getRecommendationsParse (raw : String) : ParseResult :=
  match jsonParse raw with
  | none => ParseResult.malformed raw
  | some (Json.obj fields) =>
    ParseResult.success (jsonObjGet fields "artists" (Json.arr []))
  | some _ => ParseResult.attrError

/-- The fixed alias table `self.MODEL_MAPPING` built in `LLMService.__init__`
(lines 16-19). -/
def MODEL_MAPPING : List (String × String) :=
  [("gpt-4", "gpt-4"), ("claude", "anthropic/claude-3-5-sonnet-latest")]

/-- Model resolution `self.MODEL_MAPPING.get(model, model)` as performed at
the top of each recommendation operation (lines 24, 76, 136). -/
def resolveModel (model : String) : String :=
  match MODEL_MAPPING.lookup model with
  | some v => v
  | none => model

/-- Modelled from the spec: the `Artist` record of `app/models.py`, which is
not among the examined source files.  Fields follow the spec data model
(`id`, `name`, `genres`), with a missing name represented by the empty
string, matching the falsy test `if a.name` used by the service. -/
structure Artist where
  id : String
  name : String
  genres : List String

/-- Artist context block built by `get_recommendations` (lines 27-31): a
header plus one line per artist with non-empty name. -/
def artistContextRec (artists : List Artist) : String :=
  "Available artists and their genres:\n" ++
    String.intercalate "\n"
      ((artists.filter (fun a => a.name != "")).map
        (fun a => a.name ++ " - " ++ String.intercalate ", " a.genres))

/-- Artist context block built by `get_artist_recommendations`
(lines 59-63); the source duplicates the rendering expression of
`get_recommendations`. -/
def artistContextTwoStage (artists : List Artist) : String :=
  "Available artists and their genres:\n" ++
    String.intercalate "\n"
      ((artists.filter (fun a => a.name != "")).map
        (fun a => a.name ++ " - " ++ String.intercalate ", " a.genres))

/-- User message of `get_recommendations` (line 43). -/
def userMessageRec (prompt : String) (artists : List Artist) : String :=
  "Context: " ++ artistContextRec artists ++ "\n\nCreate a playlist for: " ++ prompt

/-- User message of `get_artist_recommendations` (line 79). -/
def userMessageTwoStage (prompt : String) (artists : List Artist) : String :=
  "Context: " ++ artistContextTwoStage artists ++ "\n\nCreate a playlist for: " ++ prompt

/-- Modelled from the caller contract of `get_track_recommendations`: one
track dict with key `title`. -/
structure TrackEntry where
  title : String

/-- Modelled from the caller contract of `get_track_recommendations`: one
album dict with keys `name` and `tracks`. -/
structure Album where
  name : String
  tracks : List TrackEntry

/-- Track context block built by `get_track_recommendations`
(lines 110-116), accumulating over artists, albums and tracks in catalog
order. -/
def tracksContext (artistTracks : List (String × List Album)) : String :=
  artistTracks.foldl
    (fun acc p =>
      p.2.foldl
        (fun acc2 album =>
          album.tracks.foldl
            (fun acc3 track => acc3 ++ "- " ++ track.title ++ "\n")
            (acc2 ++ "Album: " ++ album.name ++ "\n"))
        (acc ++ "\n" ++ p.1 ++ ":\n"))
    "Available tracks by artist:\n"

/-- User message of `get_track_recommendations` (line 139). -/
def userMessageTrack (prompt : String) (artistTracks : List (String × List Album)) : String :=
  "Context: " ++ tracksContext artistTracks ++ "\n\nCreate a playlist for: " ++ prompt

/-- System prompt of `get_recommendations` (lines 33-37), transcribed
verbatim from the triple-quoted Python literal. -/
def recSystemPrompt : String :=
  "You are a music curator helping to create playlists. \n            Analyze the available artists and their genres, then select the most appropriate ones for the requested playlist.\n            Return your response as a JSON object with:\n            - \x27artists\x27: array of 15-20 artist names from the provided list.\n            Only include artists from the provided list."

/-- System prompt of `get_artist_recommendations` (lines 65-73), transcribed
verbatim from the triple-quoted Python literal. -/
def artistSystemPrompt : String :=
  "You are a multilingual music curator helping to create playlists. \n            Your responses must ALWAYS be in English, even when the prompt is in another language.\n            Analyze the available artists and their genres, then select the most appropriate ones for the requested playlist.\n            \n            You must ALWAYS respond with valid JSON only, in this exact format:\n            \x7b\"artists\": [\"Artist1\", \"Artist2\", \"Artist3\"]\x7d\n            \n            Do not add any explanations or other text - just the JSON object.\n            Select 10-15 artists that match the mood/theme, only from the provided list."

/-- System prompt of `get_track_recommendations` (lines 118-133),
transcribed verbatim from the triple-quoted Python literal. -/
def trackSystemPrompt : String :=
  "You are a multilingual music curator creating a cohesive playlist.\n            Your responses must ALWAYS be in English and contain ONLY a valid JSON object.\n            \n            Based on the available tracks and the playlist theme, select specific songs that:\n            1. Flow well together\n            2. Match the requested mood/theme\n            3. Create a balanced representation of artists\n            \n            You must respond with ONLY a JSON object in this exact format:\n            \x7b\n                \"tracks\": [\n                    \x7b\"artist\": \"artist name\", \"title\": \"track title\"\x7d\n                ]\n            \x7d\n            \n            Select 20-30 tracks total. Do not add any explanations or additional text."

/-- One chat message of a completion request. -/
structure Message where
  role : String
  content : String

/-- The completion request shape passed to `litellm.completion` by each
operation: resolved model, messages, `max_tokens` and `temperature`
(temperature 0.7 is represented exactly as the rational 7/10). -/
structure CompletionRequest where
  model : String
  messages : List Message
  max_tokens : Nat
  temperature : ℚ

/-- Completion request issued by `get_recommendations` (lines 39-47). -/
def getRecommendationsRequest (prompt : String) (artists : List Artist)
    (model : String) : CompletionRequest :=
  { model := resolveModel model
    messages := [⟨"system", recSystemPrompt⟩, ⟨"user", userMessageRec prompt artists⟩]
    max_tokens := 1024
    temperature := mkRat 7 10 }

/-- Completion request issued by `get_artist_recommendations`
(lines 75-83). -/
def getArtistRecommendationsRequest (prompt : String) (artists : List Artist)
    (model : String) : CompletionRequest :=
  { model := resolveModel model
    messages := [⟨"system", artistSystemPrompt⟩, ⟨"user", userMessageTwoStage prompt artists⟩]
    max_tokens := 1024
    temperature := mkRat 7 10 }

/-- Completion request issued by `get_track_recommendations`
(lines 135-143). -/
def getTrackRecommendationsRequest (prompt : String)
    (artistTracks : List (String × List Album)) (model : String) : CompletionRequest :=
  { model := resolveModel model
    messages := [⟨"system", trackSystemPrompt⟩, ⟨"user", userMessageTrack prompt artistTracks⟩]
    max_tokens := 2048
    temperature := mkRat 7 10 }

/-- Structural substring search: decides whether `pat` occurs as a
contiguous segment of `s`. -/
def containsSeg (pat : List Char) : List Char → Bool
  | [] => pat.isEmpty
  | c :: t => pat.isPrefixOf (c :: t) || containsSeg pat t

/-- Helper: a successful `isPrefixOf` test yields a completing suffix. -/
lemma isPrefixOf_sound : ∀ (p s : List Char), p.isPrefixOf s = true → ∃ t, p ++ t = s
  | [], s, _ => ⟨s, rfl⟩
  | a :: p, [], h => by simp [List.isPrefixOf] at h
  | a :: p, b :: s, h => by
    simp only [List.isPrefixOf, Bool.and_eq_true, beq_iff_eq] at h
    obtain ⟨t, ht⟩ := isPrefixOf_sound p s h.2
    exact ⟨t, by simp [h.1, ht]⟩

/-- Helper: the structural substring search is sound for `List.IsInfix`. -/
lemma containsSeg_sound (pat : List Char) :
    ∀ s, containsSeg pat s = true → List.IsInfix pat s := by
  intro s
  induction s with
  | nil =>
    intro h
    have hp : pat = [] := by simpa [containsSeg, List.isEmpty_iff] using h
    rw [hp]
  | cons c t ih =>
    intro h
    simp only [containsSeg, Bool.or_eq_true] at h
    rcases h with h | h
    · obtain ⟨r, hr⟩ := isPrefixOf_sound pat (c :: t) h
      exact ⟨[], r, by simpa using hr⟩
    · exact List.infix_cons (ih h)

/-- Helper: the validation step propagates a decode failure as a malformed
outcome carrying the stripped text. -/
lemma parseLLMResponse_of_decode_fail (field raw : String)
    (h : jsonParse (pyStrip raw) = none) :
    parseLLMResponse field raw = ParseResult.malformed (pyStrip raw) := by
  unfold parseLLMResponse
  rw [h]

/-- Helper: on a decoded JSON object the validation step reduces to the
truthiness test on the extracted field. -/
lemma parseLLMResponse_of_obj (field raw : String) (fields : List (String × Json))
    (h : jsonParse (pyStrip raw) = some (Json.obj fields)) :
    parseLLMResponse field raw =
      (if (jsonObjGet fields field (Json.arr [])).truthy then
        ParseResult.success (jsonObjGet fields field (Json.arr []))
      else ParseResult.emptyResult) := by
  unfold parseLLMResponse
  rw [h]

/-- Helper: a decoded document that is not a JSON object makes the
validation step fail with an attribute error. -/
lemma parseLLMResponse_of_nonobj (field raw : String) (j : Json)
    (h : jsonParse (pyStrip raw) = some j) (hj : ∀ fields, j ≠ Json.obj fields) :
    parseLLMResponse field raw = ParseResult.attrError := by
  unfold parseLLMResponse
  rw [h]
  cases j with
  | null => rfl
  | bool b => rfl
  | num q => rfl
  | str s => rfl
  | arr l => rfl
  | obj fields => exact absurd rfl (hj fields)

/-- C6: for every raw text whose stripped form is not valid JSON, the
validation step of artist and track selection fails with a malformed
outcome carrying the offending (stripped) text, and never attempts any
recovery or extraction: no other outcome is possible on unparseable
input. -/
theorem malformed_response_spec (field raw : String)
    (h : jsonParse (pyStrip raw) = none) :
    parseLLMResponse field raw = ParseResult.malformed (pyStrip raw) :=
  parseLLMResponse_of_decode_fail field raw h

/-- Witness for C6 at the concrete raw text of the spec scenario: the text
is unparseable and the failure carries it verbatim. -/
theorem malformed_response_spec_witness :
    jsonParse (pyStrip "not json") = none ∧
    parseLLMResponse "artists" "not json" = ParseResult.malformed "not json" :=
  ⟨rfl, malformed_response_spec "artists" "not json" rfl⟩

/-- C5: on parse success the extracted list is returned exactly as stored
in the document, in order, with no reordering, deduplication or element
modification. -/
theorem parse_returns_field_as_is (field raw : String)
    (fields : List (String × Json)) (xs : List Json)
    (hp : jsonParse (pyStrip raw) = some (Json.obj fields))
    (hf : jsonObjGet fields field (Json.arr []) = Json.arr xs)
    (hne : xs ≠ []) :
    parseLLMResponse field raw = ParseResult.success (Json.arr xs) := by
  rw [parseLLMResponse_of_obj field raw fields hp, hf]
  simp [Json.truthy, hne]

/-- Witness for C5: the round trip of the spec, at the raw text
consisting of a JSON object binding "artists" to the list ["A", "B"]. -/
theorem parse_returns_field_as_is_witness :
    parseLLMResponse "artists" "\x7b\"artists\": [\"A\",\"B\"]\x7d" =
      ParseResult.success (Json.arr [Json.str "A", Json.str "B"]) :=
  parse_returns_field_as_is "artists" "\x7b\"artists\": [\"A\",\"B\"]\x7d"
    [("artists", Json.arr [Json.str "A", Json.str "B"])]
    [Json.str "A", Json.str "B"] rfl rfl (by simp)

/-- Helper: a successful validation outcome comes from a decoded JSON
object and returns the extracted field value unchanged; that value is
truthy. -/
lemma parseLLMResponse_success_truthy (field raw : String) (v : Json)
    (h : parseLLMResponse field raw = ParseResult.success v) :
    (∃ fields, jsonParse (pyStrip raw) = some (Json.obj fields) ∧
      jsonObjGet fields field (Json.arr []) = v) ∧ v.truthy = true := by
  cases hj : jsonParse (pyStrip raw) with
  | none =>
    rw [parseLLMResponse_of_decode_fail field raw hj] at h
    exact ParseResult.noConfusion h
  | some j =>
    by_cases hobj : ∃ fields, j = Json.obj fields
    · obtain ⟨fields, rfl⟩ := hobj
      rw [parseLLMResponse_of_obj field raw fields hj] at h
      by_cases ht : (jsonObjGet fields field (Json.arr [])).truthy = true
      · rw [if_pos ht] at h
        injection h with hv
        exact ⟨⟨fields, rfl, hv⟩, hv ▸ ht⟩
      · rw [if_neg ht] at h
        exact ParseResult.noConfusion h
    · rw [parseLLMResponse_of_nonobj field raw j hj
        (fun fields hf => hobj ⟨fields, hf⟩)] at h
      exact ParseResult.noConfusion h

/-- C1 counterexample: the raw text "[]" is valid JSON, so the claimed
dichotomy requires a non-empty sequence or one of the two typed failures,
but the code raises an untyped `AttributeError` (calling `dict.get` on a
list): the outcome is none of the three claimed cases. -/
theorem parse_coverage_counterexample :
    jsonParse (pyStrip "[]") = some (Json.arr []) ∧
    getArtistRecommendationsParse "[]" = ParseResult.attrError :=
  ⟨rfl, rfl⟩

/-- C1 amended: the validation step fails with MalformedResponse exactly
when the stripped text is not valid JSON; on a well-formed JSON object it
raises EmptyResult exactly when the extracted field value is falsy (absent
field, empty sequence, or any other falsy value such as null or an empty
string) and otherwise succeeds with that value; on well-formed JSON that is
not an object it raises an untyped attribute error instead of either typed
failure. -/
theorem parse_outcome_characterization (field raw : String) :
    (parseLLMResponse field raw = ParseResult.malformed (pyStrip raw) ↔
      jsonParse (pyStrip raw) = none) ∧
    (∀ fields, jsonParse (pyStrip raw) = some (Json.obj fields) →
      ((parseLLMResponse field raw = ParseResult.emptyResult ↔
        (jsonObjGet fields field (Json.arr [])).truthy = false) ∧
      ((jsonObjGet fields field (Json.arr [])).truthy = true →
        parseLLMResponse field raw =
          ParseResult.success (jsonObjGet fields field (Json.arr []))))) ∧
    (∀ j, jsonParse (pyStrip raw) = some j → (∀ fields, j ≠ Json.obj fields) →
      parseLLMResponse field raw = ParseResult.attrError) := by
  refine ⟨⟨?_, parseLLMResponse_of_decode_fail field raw⟩, ?_, ?_⟩
  · intro h
    cases hj : jsonParse (pyStrip raw) with
    | none => rfl
    | some j =>
      by_cases hobj : ∃ fields, j = Json.obj fields
      · obtain ⟨fields, rfl⟩ := hobj
        rw [parseLLMResponse_of_obj field raw fields hj] at h
        by_cases ht : (jsonObjGet fields field (Json.arr [])).truthy = true
        · rw [if_pos ht] at h
          exact ParseResult.noConfusion h
        · rw [if_neg ht] at h
          exact ParseResult.noConfusion h
      · rw [parseLLMResponse_of_nonobj field raw j hj
          (fun fields hf => hobj ⟨fields, hf⟩)] at h
        exact ParseResult.noConfusion h
  · intro fields hj
    rw [parseLLMResponse_of_obj field raw fields hj]
    constructor
    · constructor
      · intro h
        by_cases ht : (jsonObjGet fields field (Json.arr [])).truthy = true
        · rw [if_pos ht] at h
          exact ParseResult.noConfusion h
        · simpa using ht
      · intro h
        rw [if_neg (by simp [h])]
    · intro ht
      rw [if_pos ht]
  · intro j hj hne
    exact parseLLMResponse_of_nonobj field raw j hj hne

/-- Witness for C1 amended: a response whose "artists" field is present but
bound to null is well-formed, and the validation step raises EmptyResult
for it (the field value is falsy without being an empty sequence). -/
theorem parse_outcome_characterization_witness :
    parseLLMResponse "artists" "\x7b\"artists\": null\x7d" = ParseResult.emptyResult :=
  (((parse_outcome_characterization "artists" "\x7b\"artists\": null\x7d").2.1
    [("artists", Json.null)] rfl).1).mpr rfl

/-- C2 counterexample: on the well-formed response binding "artists" to an
empty list, the single-stage `get_recommendations` returns the empty list
as a successful result instead of raising a failure. -/
theorem single_stage_empty_counterexample :
    jsonParse "\x7b\"artists\": []\x7d" = some (Json.obj [("artists", Json.arr [])]) ∧
    getRecommendationsParse "\x7b\"artists\": []\x7d" = ParseResult.success (Json.arr []) :=
  ⟨rfl, rfl⟩

/-- C2 amended: the two-stage operations never return an empty selection on
success: any successfully returned value is truthy, so in particular a
returned list is non-empty.  (The single-stage `get_recommendations`
performs no such check, as the counterexample shows.) -/
theorem two_stage_success_nonempty (raw : String) (v : Json)
    (h : getArtistRecommendationsParse raw = ParseResult.success v ∨
         getTrackRecommendationsParse raw = ParseResult.success v) :
    v.truthy = true ∧ ∀ xs, v = Json.arr xs → xs ≠ [] := by
  have ht : v.truthy = true := by
    rcases h with h | h
    · exact (parseLLMResponse_success_truthy "artists" raw v h).2
    · exact (parseLLMResponse_success_truthy "tracks" raw v h).2
  refine ⟨ht, fun xs hxs hnil => ?_⟩
  rw [hxs, hnil] at ht
  exact Bool.noConfusion ht

/-- Witness for C2 amended at a concrete successful stage-1 response. -/
theorem two_stage_success_nonempty_witness :
    (Json.arr [Json.str "A"]).truthy = true :=
  (two_stage_success_nonempty "\x7b\"artists\": [\"A\"]\x7d"
    (Json.arr [Json.str "A"]) (Or.inl rfl)).1

/-- C7 counterexample: on the well-formed response binding "artists" to the
string "hello" (not a list of strings), the validator returns that string
as a successful result: no shape validation of the extracted value is
performed. -/
theorem shape_validation_counterexample :
    jsonParse "\x7b\"artists\": \"hello\"\x7d" =
      some (Json.obj [("artists", Json.str "hello")]) ∧
    getArtistRecommendationsParse "\x7b\"artists\": \"hello\"\x7d" =
      ParseResult.success (Json.str "hello") :=
  ⟨rfl, rfl⟩

/-- C7 amended: for a well-formed JSON object response, the validator
checks only parseability and truthiness (non-emptiness) of the extracted
field value; on success it returns exactly the stored value, whatever its
shape. -/
theorem validator_checks_truthiness_only (field raw : String)
    (fields : List (String × Json)) (v : Json)
    (hp : jsonParse (pyStrip raw) = some (Json.obj fields))
    (h : parseLLMResponse field raw = ParseResult.success v) :
    jsonObjGet fields field (Json.arr []) = v ∧ v.truthy = true := by
  obtain ⟨⟨fields2, hj, hv⟩, ht⟩ := parseLLMResponse_success_truthy field raw v h
  rw [hp] at hj
  injection hj with hj2
  injection hj2 with hj3
  rw [hj3]
  exact ⟨hv, ht⟩

/-- Witness for C7 amended at a concrete successful stage-2 response. -/
theorem validator_checks_truthiness_only_witness :
    jsonObjGet [("tracks", Json.arr [Json.str "T"])] "tracks" (Json.arr []) =
      Json.arr [Json.str "T"] ∧ (Json.arr [Json.str "T"]).truthy = true :=
  validator_checks_truthiness_only "tracks" "\x7b\"tracks\": [\"T\"]\x7d"
    [("tracks", Json.arr [Json.str "T"])] (Json.arr [Json.str "T"]) rfl rfl

/-- C3: model resolution is a pure function of the fixed alias table and
the input: both table aliases resolve to their mapped identifiers ("gpt-4"
to itself, "claude" to a provider-qualified identifier distinct from
"claude"), and any alias outside the table resolves to itself. -/
theorem resolveModel_spec (a : String) (h : a ≠ "gpt-4" ∧ a ≠ "claude") :
    resolveModel a = a ∧
    resolveModel "gpt-4" = "gpt-4" ∧
    resolveModel "claude" = "anthropic/claude-3-5-sonnet-latest" ∧
    ("anthropic/claude-3-5-sonnet-latest" : String) ≠ "claude" := by
  refine ⟨?_, rfl, rfl, by decide⟩
  unfold resolveModel MODEL_MAPPING
  have h1 : (a == "gpt-4") = false := beq_eq_false_iff_ne.mpr h.1
  have h2 : (a == "claude") = false := beq_eq_false_iff_ne.mpr h.2
  simp [List.lookup, h1, h2]

/-- Witness for C3 at the unrecognized alias of the spec scenario. -/
theorem resolveModel_spec_witness :
    resolveModel "custom-model-x" = "custom-model-x" ∧
    resolveModel "gpt-4" = "gpt-4" ∧
    resolveModel "claude" = "anthropic/claude-3-5-sonnet-latest" := by
  have h := resolveModel_spec "custom-model-x" (by decide)
  exact ⟨h.1, h.2.1, h.2.2.1⟩

/-- C8: every completion request consists of exactly two messages, a
system-role instruction and a user-role message equal to the fixed template
instantiated with the rendered context and the theme; temperature is 7/10
in all three operations, and the track-selection output budget is strictly
larger than both artist-selection budgets. -/
theorem completion_request_spec (prompt : String) (artists : List Artist)
    (artistTracks : List (String × List Album)) (model : String) :
    (getRecommendationsRequest prompt artists model).messages =
      [⟨"system", recSystemPrompt⟩,
       ⟨"user", "Context: " ++ artistContextRec artists ++
         "\n\nCreate a playlist for: " ++ prompt⟩] ∧
    (getArtistRecommendationsRequest prompt artists model).messages =
      [⟨"system", artistSystemPrompt⟩,
       ⟨"user", "Context: " ++ artistContextTwoStage artists ++
         "\n\nCreate a playlist for: " ++ prompt⟩] ∧
    (getTrackRecommendationsRequest prompt artistTracks model).messages =
      [⟨"system", trackSystemPrompt⟩,
       ⟨"user", "Context: " ++ tracksContext artistTracks ++
         "\n\nCreate a playlist for: " ++ prompt⟩] ∧
    (getRecommendationsRequest prompt artists model).temperature = mkRat 7 10 ∧
    (getArtistRecommendationsRequest prompt artists model).temperature = mkRat 7 10 ∧
    (getTrackRecommendationsRequest prompt artistTracks model).temperature = mkRat 7 10 ∧
    (getArtistRecommendationsRequest prompt artists model).max_tokens <
      (getTrackRecommendationsRequest prompt artistTracks model).max_tokens ∧
    (getRecommendationsRequest prompt artists model).max_tokens <
      (getTrackRecommendationsRequest prompt artistTracks model).max_tokens :=
  ⟨rfl, rfl, rfl, rfl, rfl, rfl,
    (by decide : (1024 : Nat) < 2048), (by decide : (1024 : Nat) < 2048)⟩

/-- C9: the fixed system instructions state the target cardinalities: the
two-stage artist instruction asks for 10-15 artists from the provided
list, the single-stage instruction for 15-20 artist names from the
provided list, and the track instruction for 20-30 tracks. -/
theorem system_prompt_cardinalities :
    List.IsInfix "Select 10-15 artists".data artistSystemPrompt.data ∧
    List.IsInfix "only from the provided list".data artistSystemPrompt.data ∧
    List.IsInfix "array of 15-20 artist names from the provided list".data
      recSystemPrompt.data ∧
    List.IsInfix "Select 20-30 tracks total".data trackSystemPrompt.data := by
  set_option maxRecDepth 10000 in
  refine ⟨?_, ?_, ?_, ?_⟩ <;> · apply containsSeg_sound; rfl

/-- C10: the duplicated rendering logic of the single-stage and two-stage
artist-selection paths computes the same string function: the context
blocks and the user messages agree character for character on every
input. -/
theorem duplicated_context_paths_agree (prompt : String) (artists : List Artist) :
    artistContextRec artists = artistContextTwoStage artists ∧
    userMessageRec prompt artists = userMessageTwoStage prompt artists :=
  ⟨rfl, rfl⟩

/-- Helper: character data of a string concatenation. -/
lemma strDataAppend (s t : String) : (s ++ t).data = s.data ++ t.data := rfl

/-- Helper: character data of the accumulator loop of `String.intercalate`. -/
lemma strIntercalateGoData (s : String) : ∀ (as : List String) (acc : String),
    (String.intercalate.go acc s as).data =
      acc.data ++ (as.map (fun a => s.data ++ a.data)).flatten
  | [], acc => by simp [String.intercalate.go]
  | a :: as, acc => by
    show (String.intercalate.go (acc ++ s ++ a) s as).data = _
    rw [strIntercalateGoData s as (acc ++ s ++ a)]
    simp [strDataAppend, List.append_assoc]

/-- Helper: character data of `String.intercalate` on a non-empty list. -/
lemma strIntercalateData (s : String) (l0 : String) (ls : List String) :
    (String.intercalate s (l0 :: ls)).data =
      l0.data ++ (ls.map (fun a => s.data ++ a.data)).flatten := by
  show (String.intercalate.go l0 s ls).data = _
  rw [strIntercalateGoData s ls l0]

/-- Helper: unfolding of `List.intercalate` on a non-empty list. -/
lemma listIntercalateCons (sep : List Char) (x : List Char) (xs : List (List Char)) :
    List.intercalate sep (x :: xs) = x ++ (xs.map (fun y => sep ++ y)).flatten := by
  induction xs generalizing x with
  | nil => simp [List.intercalate]
  | cons y ys ih =>
    rw [List.intercalate, List.intersperse_cons_cons, List.flatten_cons, List.flatten_cons]
    have := ih y
    rw [List.intercalate] at this
    rw [this]
    simp [List.append_assoc]

/-- Helper: a character occurring in an intercalation occurs in the
separator or in one of the pieces. -/
lemma mem_strIntercalate (c : Char) (s : String) (l : List String)
    (h : c ∈ (String.intercalate s l).data) :
    c ∈ s.data ∨ ∃ y ∈ l, c ∈ y.data := by
  cases l with
  | nil => simp [String.intercalate] at h
  | cons l0 ls =>
    rw [strIntercalateData] at h
    rcases List.mem_append.mp h with h | h
    · exact Or.inr ⟨l0, List.mem_cons_self l0 ls, h⟩
    · obtain ⟨chunk, hc, hmem⟩ := List.mem_flatten.mp h
      obtain ⟨y, hy, rfl⟩ := List.mem_map.mp hc
      rcases List.mem_append.mp hmem with h | h
      · exact Or.inl h
      · exact Or.inr ⟨y, List.mem_cons_of_mem l0 hy, h⟩

/-- C4: for a catalog with at least one non-empty-named artist (names and
genres free of newlines, which the line format presupposes), the stage-1
context block splits on newlines into exactly the header followed by one
line per artist with non-empty name, in catalog order, each formatted as
name, separator, comma-joined genres; empty-named artists contribute no
line. -/
theorem stage1_context_lines (artists : List Artist)
    (hne : ∃ a ∈ artists, a.name ≠ "")
    (hclean : ∀ a ∈ artists, '\n' ∉ a.name.data ∧ ∀ g ∈ a.genres, '\n' ∉ g.data) :
    (artistContextTwoStage artists).data.splitOn '\n' =
      "Available artists and their genres:".data ::
        (artists.filter (fun a => a.name != "")).map
          (fun a => (a.name ++ " - " ++ String.intercalate ", " a.genres).data) := by
  classical
  set L := (artists.filter (fun a => a.name != "")).map
      (fun a => a.name ++ " - " ++ String.intercalate ", " a.genres) with hLdef
  obtain ⟨a0, ha0, hname0⟩ := hne
  have hmem : a0 ∈ artists.filter (fun a => a.name != "") :=
    List.mem_filter.mpr ⟨ha0, by simpa [bne_iff_ne] using hname0⟩
  have hLne : L ≠ [] := by
    rw [hLdef, ne_eq, List.map_eq_nil_iff]
    exact List.ne_nil_of_mem hmem
  obtain ⟨l0, ls, hL⟩ := List.exists_cons_of_ne_nil hLne
  have hdata : (artistContextTwoStage artists).data =
      List.intercalate ['\n']
        ("Available artists and their genres:".data :: L.map String.data) := by
    show ("Available artists and their genres:\n" ++ String.intercalate "\n" L).data = _
    rw [hL, strDataAppend, strIntercalateData, listIntercalateCons]
    simp [List.map_map, List.append_assoc, Function.comp_def]
  have hx : ∀ l ∈ ("Available artists and their genres:".data :: L.map String.data),
      '\n' ∉ l := by
    intro l hl
    rcases List.mem_cons.mp hl with rfl | hl
    · decide
    · obtain ⟨lineS, hlineS, rfl⟩ := List.mem_map.mp hl
      rw [hLdef] at hlineS
      obtain ⟨a, haf, rfl⟩ := List.mem_map.mp hlineS
      have ha : a ∈ artists := (List.mem_filter.mp haf).1
      obtain ⟨hn, hg⟩ := hclean a ha
      intro hmem2
      rw [strDataAppend, strDataAppend] at hmem2
      rcases List.mem_append.mp hmem2 with h2 | h2
      · rcases List.mem_append.mp h2 with h3 | h3
        · exact hn h3
        · exact absurd h3 (by decide)
      · rcases mem_strIntercalate '\n' ", " a.genres h2 with h3 | ⟨g, hgmem, h3⟩
        · exact absurd h3 (by decide)
        · exact hg g hgmem h3
  rw [hdata, List.splitOn_intercalate _ '\n' hx (List.cons_ne_nil _ _)]
  rw [hLdef]
  simp [List.map_map, Function.comp_def]

/-- Witness for C4 at a concrete two-artist catalog, one artist with an
empty name. -/
theorem stage1_context_lines_witness :
    (artistContextTwoStage
        [Artist.mk "1" "Artist 1" ["Rock", "Indie"],
         Artist.mk "2" "" ["Pop"]]).data.splitOn '\n' =
      ["Available artists and their genres:".data, "Artist 1 - Rock, Indie".data] := by
  rw [stage1_context_lines
    [Artist.mk "1" "Artist 1" ["Rock", "Indie"], Artist.mk "2" "" ["Pop"]]
    (by decide) (by decide)]
  decide
